import Mathlib

/-!
Verification of `get_wiki_content.py` (Lark wiki content retrieval script).

The script reads a JSON array of document descriptors, and then either
  * (dry mode, no `LARK_USER_ACCESS_TOKEN`) prints the descriptor list and
    exits 0, or
  * (live mode) fetches each document's raw content through a `curl`
    subprocess, parses the JSON envelope, annotates each descriptor with its
    content (or `None` on failure), and writes a plain-text report.

The embedding below models Python values appearing in the script at the
granularity the script manipulates them: JSON values (as returned by
`json.loads`), Python truthiness, `str()` formatting, `len()`, dict access
(`d[k]` raising `KeyError`, `d.get(k, default)`), and unhandled exceptions
(`Except.error`).  The `curl` subprocess is abstracted as a `Transport`
oracle mapping the request URL and authorization header to either a
`CurlResult` (return code + stdout) or a raised exception (modelling
`subprocess.run` itself failing, which the script does not catch).
-/

namespace WikiContent

/-- JSON values as produced by Python's `json.loads`: `null`/`None`,
booleans, integers, strings, arrays and objects.  (The script's API
envelopes only contain these shapes; floats are not modelled, and the
parser below rejects them, which no modelled input exercises.) -/
inductive Json where
  | null : Json
  | bool (b : Bool) : Json
  | num (n : Int) : Json
  | str (s : String) : Json
  | arr (elems : List Json) : Json
  | obj (members : List (String × Json)) : Json
deriving Repr, Inhabited

/-- The opening-brace character, `'\x7b'`. -/
def lbrace : Char := Char.ofNat 123

/-- The closing-brace character, `'\x7d'`. -/
def rbrace : Char := Char.ofNat 125

/-- Skip JSON whitespace. -/
def skipWs : List Char → List Char
  | c :: cs => if c = ' ' ∨ c = '\t' ∨ c = '\n' ∨ c = '\r' then skipWs cs else c :: cs
  | [] => []

/-- Match a literal keyword tail (e.g. `ull` after `n`). -/
def dropLit : List Char → List Char → Option (List Char)
  | [], cs => some cs
  | l :: ls, c :: cs => if c = l then dropLit ls cs else none
  | _ :: _, [] => none

/-- Value of a hexadecimal digit. -/
def hexVal (c : Char) : Option Nat :=
  if '0' ≤ c ∧ c ≤ '9' then some (c.toNat - 48)
  else if 'a' ≤ c ∧ c ≤ 'f' then some (c.toNat - 87)
  else if 'A' ≤ c ∧ c ≤ 'F' then some (c.toNat - 55)
  else none

/-- Parse the body of a JSON string after the opening quote, handling the
standard escapes (`\uXXXX` as a single code point). -/
def parseStrAux : List Char → List Char → Option (String × List Char)
  | [], _ => none
  | '"' :: rest, acc => some (String.mk acc.reverse, rest)
  | '\\' :: e :: rest, acc =>
    if e = '"' then parseStrAux rest ('"' :: acc)
    else if e = '\\' then parseStrAux rest ('\\' :: acc)
    else if e = '/' then parseStrAux rest ('/' :: acc)
    else if e = 'n' then parseStrAux rest ('\n' :: acc)
    else if e = 't' then parseStrAux rest ('\t' :: acc)
    else if e = 'r' then parseStrAux rest ('\r' :: acc)
    else if e = 'b' then parseStrAux rest (Char.ofNat 8 :: acc)
    else if e = 'f' then parseStrAux rest (Char.ofNat 12 :: acc)
    else if e = 'u' then
      match rest with
      | a :: b :: c :: d :: rest2 =>
        match hexVal a, hexVal b, hexVal c, hexVal d with
        | some x, some y, some z, some w =>
          parseStrAux rest2 (Char.ofNat (((x * 16 + y) * 16 + z) * 16 + w) :: acc)
        | _, _, _, _ => none
      | _ => none
    else none
  | '\\' :: [], _ => none
  | c :: rest, acc => parseStrAux rest (c :: acc)

/-- Split a leading run of decimal digits. -/
def takeDigits : List Char → (List Char × List Char)
  | [] => ([], [])
  | c :: cs =>
    if c.isDigit then
      let (ds, rest) := takeDigits cs
      (c :: ds, rest)
    else ([], c :: cs)

/-- Numeric value of a digit list. -/
def digitsToNat (ds : List Char) : Nat :=
  ds.foldl (fun n c => n * 10 + (c.toNat - 48)) 0

/-- Parse a JSON integer (optional minus sign, digit run). -/
def parseNumber : List Char → Option (Json × List Char)
  | '-' :: rest =>
    match takeDigits rest with
    | ([], _) => none
    | (ds, rest2) => some (Json.num (-(digitsToNat ds : Int)), rest2)
  | cs =>
    match takeDigits cs with
    | ([], _) => none
    | (ds, rest2) => some (Json.num (digitsToNat ds : Int), rest2)

mutual

/-- Fuel-indexed recursive-descent parser for a JSON value. -/
def parseValue : Nat → List Char → Option (Json × List Char)
  | 0, _ => none
  | fuel + 1, cs =>
    match skipWs cs with
    | [] => none
    | c :: rest =>
      if c = '"' then
        match parseStrAux rest [] with
        | some (s, r) => some (Json.str s, r)
        | none => none
      else if c = lbrace then parseMembers fuel rest
      else if c = '[' then parseElems fuel rest
      else if c = 'n' then
        match dropLit ['u', 'l', 'l'] rest with
        | some r => some (Json.null, r)
        | none => none
      else if c = 't' then
        match dropLit ['r', 'u', 'e'] rest with
        | some r => some (Json.bool true, r)
        | none => none
      else if c = 'f' then
        match dropLit ['a', 'l', 's', 'e'] rest with
        | some r => some (Json.bool false, r)
        | none => none
      else if c = '-' ∨ c.isDigit then parseNumber (c :: rest)
      else none

/-- Parse an object body after the opening brace. -/
def parseMembers : Nat → List Char → Option (Json × List Char)
  | 0, _ => none
  | fuel + 1, cs =>
    match skipWs cs with
    | [] => none
    | c :: rest =>
      if c = rbrace then some (Json.obj [], rest)
      else parseMembersAux fuel (c :: rest) []

/-- Parse the members of a non-empty object (key, colon, value, comma/close). -/
def parseMembersAux : Nat → List Char → List (String × Json) → Option (Json × List Char)
  | 0, _, _ => none
  | fuel + 1, cs, acc =>
    match skipWs cs with
    | '"' :: rest =>
      match parseStrAux rest [] with
      | none => none
      | some (k, rest2) =>
        match skipWs rest2 with
        | ':' :: rest3 =>
          match parseValue fuel rest3 with
          | none => none
          | some (v, rest4) =>
            match skipWs rest4 with
            | ',' :: rest5 => parseMembersAux fuel rest5 (acc ++ [(k, v)])
            | c :: rest5 =>
              if c = rbrace then some (Json.obj (acc ++ [(k, v)]), rest5) else none
            | [] => none
        | _ => none
    | _ => none

/-- Parse an array body after the opening bracket. -/
def parseElems : Nat → List Char → Option (Json × List Char)
  | 0, _ => none
  | fuel + 1, cs =>
    match skipWs cs with
    | [] => none
    | c :: rest =>
      if c = ']' then some (Json.arr [], rest)
      else parseElemsAux fuel (c :: rest) []

/-- Parse the elements of a non-empty array (value, comma/close). -/
def parseElemsAux : Nat → List Char → List Json → Option (Json × List Char)
  | 0, _, _ => none
  | fuel + 1, cs, acc =>
    match parseValue fuel cs with
    | none => none
    | some (v, rest) =>
      match skipWs rest with
      | ',' :: rest2 => parseElemsAux fuel rest2 (acc ++ [v])
      | c :: rest2 => if c = ']' then some (Json.arr (acc ++ [v]), rest2) else none
      | [] => none

end

/-- Model of `json.loads` on the script's inputs: parse a full JSON value,
requiring the whole string to be consumed (modulo trailing whitespace).
Returns `none` where `json.loads` raises. -/
def Json.parse (s : String) : Option Json :=
  match parseValue (2 * s.length + 8) s.data with
  | some (v, rest) => if skipWs rest = [] then some v else none
  | none => none

mutual

/-- Python `repr()` on the modelled values (used by `str()` on containers). -/
def pyRepr : Json → String
  | Json.null => "None"
  | Json.bool true => "True"
  | Json.bool false => "False"
  | Json.num n => toString n
  | Json.str s => "'" ++ s ++ "'"
  | Json.arr xs => "[" ++ String.intercalate ", " (pyReprList xs) ++ "]"
  | Json.obj kvs => "\x7b" ++ String.intercalate ", " (pyReprPairs kvs) ++ "\x7d"

/-- `repr` of each list element. -/
def pyReprList : List Json → List String
  | [] => []
  | x :: xs => pyRepr x :: pyReprList xs

/-- `repr` of each dict entry, `'key': value`. -/
def pyReprPairs : List (String × Json) → List String
  | [] => []
  | (k, v) :: kvs => ("'" ++ k ++ "': " ++ pyRepr v) :: pyReprPairs kvs

end

/-- Python `str()` as used by f-string interpolation. -/
def pyStr : Json → String
  | Json.str s => s
  | v => pyRepr v

/-- Python truthiness of the modelled values. -/
def pyTruthy : Json → Bool
  | Json.null => false
  | Json.bool b => b
  | Json.num n => decide (n ≠ 0)
  | Json.str s => !s.isEmpty
  | Json.arr xs => !xs.isEmpty
  | Json.obj kvs => !kvs.isEmpty

/-- Unhandled Python exceptions the modelled paths can raise. -/
inductive PyErr where
  /-- `doc[k]` on a dict without key `k`. -/
  | keyError (k : String) : PyErr
  /-- `len()` of a non-sized value, or `f.write()` of a non-string. -/
  | typeError : PyErr
  /-- `subprocess.run` itself raised (e.g. the transport binary is missing);
  the script's `try` block does not cover this call. -/
  | transportError (msg : String) : PyErr
deriving Repr, DecidableEq

/-- Python `len()`: defined on strings, lists and dicts, `TypeError` otherwise. -/
def pyLen : Json → Except PyErr Nat
  | Json.str s => Except.ok s.length
  | Json.arr xs => Except.ok xs.length
  | Json.obj kvs => Except.ok kvs.length
  | _ => Except.error PyErr.typeError

/-- A document descriptor as loaded from the input JSON: a Python dict,
modelled as an association list (duplicate-free in every modelled input). -/
abbrev RawDoc := List (String × Json)

/-- Python `d.get(k)` (defaulting to `None`): last binding wins, matching
dict construction from a member list. -/
def dget : List (String × Json) → String → Option Json
  | [], _ => none
  | (k0, v) :: rest, k =>
    match dget rest k with
    | some w => some w
    | none => if k0 = k then some v else none

/-- Python `d[k]`: raises `KeyError` when absent. -/
def dgetE (d : RawDoc) (k : String) : Except PyErr Json :=
  match dget d k with
  | some v => Except.ok v
  | none => Except.error (PyErr.keyError k)

/-- Replace every binding of `k` by `(k, v)`, in place.  (On the
duplicate-free association lists that model dicts, this replaces the one
binding.) -/
def replaceAll : RawDoc → String → Json → RawDoc
  | [], _, _ => []
  | (k0, w) :: rest, k, v =>
    (if k0 = k then (k, v) else (k0, w)) :: replaceAll rest k v

/-- Python `d[k] = v`: replace the binding in place, or append a new one. -/
def dset (d : RawDoc) (k : String) (v : Json) : RawDoc :=
  if (dget d k).isSome then replaceAll d k v else d ++ [(k, v)]

/-- The fixed input path (`INPUT_FILE` in the script). -/
def INPUT_FILE : String := "temp/wiki_documents.json"

/-- The fixed output path (`OUTPUT_FILE` in the script). -/
def OUTPUT_FILE : String := "temp/wiki_documents_with_content.txt"

/-- Result of the `curl` subprocess: exit status and captured stdout. -/
structure CurlResult where
  returncode : Int
  stdout : String
deriving Repr

/-- The transport oracle abstracting `subprocess.run(["curl", ...])`: given
the request URL and the `Authorization` header, it either returns a
`CurlResult` or raises (`subprocess.run` itself failing, e.g. the binary
being absent — a raise the script does not catch). -/
def Transport : Type := String → String → Except PyErr CurlResult

/-- The per-document content URL built in `get_content_via_api`. -/
def apiUrl (document_token : String) : String :=
  "https://open.feishu.cn/open-apis/docx/v1/documents/" ++ document_token ++ "/raw_content"

/-- The `Authorization` header sent with each request. -/
def authHeader (user_token : String) : String :=
  "Authorization: Bearer " ++ user_token

/-- `data.get("code") == 0` in Python: `0 == 0` and `False == 0` are true,
everything else (including a missing key, i.e. `None`) is false. -/
def eqPyZero : Option Json → Bool
  | some (Json.num 0) => true
  | some (Json.bool false) => true
  | _ => false

/-- The response-handling half of `get_content_via_api` (lines 53-61): on
exit code 0, `json.loads` the body inside `try`; on `code == 0` return
`data.get("data", {}).get("content", "")`; any raise inside the `try`
(non-JSON body, `.get` on a non-dict) is swallowed and, like every other
branch, falls through to `return None`. -/
def extractContent (resp : CurlResult) : Option Json :=
  if resp.returncode = 0 then
    match Json.parse resp.stdout with
    | some (Json.obj kvs) =>
      if eqPyZero (dget kvs "code") then
        match dget kvs "data" with
        | none => some (Json.str "")
        | some (Json.obj kvs2) =>
          match dget kvs2 "content" with
          | none => some (Json.str "")
          | some v => some v
        | some _ => none
      else none
    | some _ => none
    | none => none
  else none

/-- `get_content_via_api(document_token, user_token)` (lines 37-61): build
the URL, invoke the transport, and interpret the response.  A raise from
the transport invocation itself propagates (it is outside the `try`). -/
def get_content_via_api (transport : Transport) (document_token : Json)
    (user_token : String) : Except PyErr (Option Json) :=
  match transport (apiUrl (pyStr document_token)) (authHeader user_token) with
  | Except.error e => Except.error e
  | Except.ok resp => Except.ok (extractContent resp)

/-- One iteration of the retrieval loop in `main` (lines 108-121): the
progress prints access `doc['title']` and `doc['document_token']`
(raising `KeyError` when absent), the fetch runs, and `doc['content']` is
set to the fetched value when truthy (the success print also evaluates
`len(content)`, raising `TypeError` on a truthy unsized value) and to
`None` otherwise. -/
def processDoc (transport : Transport) (user_token : String) (doc : RawDoc) :
    Except PyErr RawDoc := do
  let _title ← dgetE doc "title"
  let tok ← dgetE doc "document_token"
  let content ← get_content_via_api transport tok user_token
  match content with
  | some v =>
    if pyTruthy v then do
      let _ ← pyLen v
      pure (dset doc "content" v)
    else
      pure (dset doc "content" Json.null)
  | none => pure (dset doc "content" Json.null)

/-- Effectful map over a list in the `Except` monad, in input order — the
shape of both the retrieval loop (append to `results`) and the report
writer's `for doc in results`. -/
def exMapM (f : α → Except PyErr β) : List α → Except PyErr (List β)
  | [] => pure []
  | x :: xs => do
    let y ← f x
    let ys ← exMapM f xs
    pure (y :: ys)

/-- The whole retrieval loop (lines 107-121): process the documents in
input order, accumulating the annotated ones in `results`. -/
def processDocs (transport : Transport) (user_token : String)
    (docs : List RawDoc) : Except PyErr (List RawDoc) :=
  exMapM (processDoc transport user_token) docs

/-- `"-" * 80`. -/
def sepLine : String := String.mk (List.replicate 80 '-')

/-- `"=" * 80`. -/
def eqLine : String := String.mk (List.replicate 80 '=')

/-- The fixed report banner (lines 128-130). -/
def bannerText : String :=
  eqLine ++ "\n" ++ "LARK WIKI DOCUMENTS - WITH CONTENT\n" ++ eqLine ++ "\n\n"

/-- The report block written for one document (lines 132-146): the metadata
lines (each `doc[...]` access raising `KeyError` when the field is
absent), a separator, then the content — written verbatim when
`doc.get('content')` is truthy (`f.write` raises `TypeError` on a
non-string) and the placeholder line otherwise — and a trailing
separator. -/
def renderDoc (doc : RawDoc) : Except PyErr String := do
  let number ← dgetE doc "number"
  let title ← dgetE doc "title"
  let level ← dgetE doc "level"
  let node_token ← dgetE doc "node_token"
  let document_token ← dgetE doc "document_token"
  let url ← dgetE doc "url"
  let head :=
    "📄 DOCUMENT " ++ pyStr number ++ ": " ++ pyStr title ++ "\n" ++
    "   Level: " ++ pyStr level ++ "\n" ++
    "   Node Token: " ++ pyStr node_token ++ "\n" ++
    "   Document Token: " ++ pyStr document_token ++ "\n" ++
    "   URL: " ++ pyStr url ++ "\n" ++
    "\n" ++ sepLine ++ "\n\n"
  let body ←
    match dget doc "content" with
    | some v =>
      if pyTruthy v then
        match v with
        | Json.str s => pure (s ++ "\n\n")
        | _ => Except.error PyErr.typeError
      else pure "[Content not available]\n\n"
    | none => pure "[Content not available]\n\n"
  pure (head ++ body ++ sepLine ++ "\n\n")

/-- The full report written to the output file (lines 127-146): the banner
followed by one block per result, in order. -/
def renderReport (results : List RawDoc) : Except PyErr String := do
  let blocks ← exMapM renderDoc results
  pure (bannerText ++ String.join blocks)

/-- One line of the dry-mode listing (line 95):
`  • {doc['title']}: {doc['document_token']}`. -/
def dryLine (doc : RawDoc) : Except PyErr String := do
  let title ← dgetE doc "title"
  let tok ← dgetE doc "document_token"
  pure ("  • " ++ pyStr title ++ ": " ++ pyStr tok)

/-- Observable outcome of a run of `main` that did not end in an unhandled
exception. -/
structure RunResult where
  /-- the `sys.exit` status (0 on normal completion, 1 on missing input) -/
  exitCode : Nat
  /-- how many transport (curl) invocations were made -/
  transportCalls : Nat
  /-- contents of the output file, if one was written -/
  output : Option String
  /-- whether the output directory creation (`mkdir`) ran -/
  dirsCreated : Bool
  /-- the dry-mode listing printed, if the dry path ran -/
  dryListing : Option (List String)
deriving Repr, DecidableEq

/-- `main()` (lines 63-151).  `user_token` is
`os.environ.get("LARK_USER_ACCESS_TOKEN")` (`none` = unset), `inputFile`
is the parsed input file (`none` = the file does not exist; its JSON
array of dicts is taken as already decoded).  Python truthiness makes a
set-but-empty token fall into dry mode too (`if not user_token`).
`Except.error` models the script dying on an unhandled exception. -/
def main (user_token : Option String) (inputFile : Option (List RawDoc))
    (transport : Transport) : Except PyErr RunResult :=
  match inputFile with
  | none => Except.ok ⟨1, 0, none, false, none⟩
  | some documents =>
    match user_token with
    | none => do
      let listing ← exMapM dryLine documents
      pure ⟨0, 0, none, false, some listing⟩
    | some tok =>
      if tok.isEmpty then do
        let listing ← exMapM dryLine documents
        pure ⟨0, 0, none, false, some listing⟩
      else do
        let results ← processDocs transport tok documents
        let report ← renderReport results
        pure ⟨0, documents.length, some report, true, none⟩

/-- Auxiliary substring test on character lists. -/
def hasSubAux (needle : List Char) : List Char → Bool
  | [] => needle.isEmpty
  | c :: rest => List.isPrefixOf needle (c :: rest) || hasSubAux needle rest

/-- `needle in hay` for strings (substring containment). -/
def strHasSub (hay needle : String) : Bool := hasSubAux needle.data hay.data

/-- A well-formed sample descriptor, as the upstream step produces them. -/
def sampleDoc : RawDoc :=
  [("number", Json.num 1), ("title", Json.str "Doc One"), ("level", Json.num 1),
   ("node_token", Json.str "nodeA"), ("document_token", Json.str "tokA"),
   ("url", Json.str "https://example.test/a")]

/-- A second well-formed sample descriptor. -/
def sampleDoc2 : RawDoc :=
  [("number", Json.num 2), ("title", Json.str "Doc Two"), ("level", Json.num 2),
   ("node_token", Json.str "nodeB"), ("document_token", Json.str "tokB"),
   ("url", Json.str "https://example.test/b")]

/-- A descriptor lacking the `url` field the report writer reads. -/
def badDoc : RawDoc :=
  [("number", Json.num 1), ("title", Json.str "Doc One"), ("level", Json.num 1),
   ("node_token", Json.str "nodeA"), ("document_token", Json.str "tokA")]

/-- Transport answering `{"code":0,"data":{"content":"hello"}}` with exit 0. -/
def trHello : Transport := fun _ _ =>
  Except.ok ⟨0, "\x7b\"code\":0,\"data\":\x7b\"content\":\"hello\"\x7d\x7d"⟩

/-- Transport answering `{"code":1}` with exit 0. -/
def trCode1 : Transport := fun _ _ => Except.ok ⟨0, "\x7b\"code\":1\x7d"⟩

/-- Transport answering a non-JSON body with exit 0. -/
def trBad : Transport := fun _ _ => Except.ok ⟨0, "Not Found"⟩

/-- The success body in which the nested content field is missing. -/
def emptyContentBody : String := "\x7b\"code\":0,\"data\":\x7b\x7d\x7d"

/-- Transport answering `{"code":0,"data":{}}` with exit 0. -/
def trEmpty : Transport := fun _ _ => Except.ok ⟨0, emptyContentBody⟩

/-- Transport whose invocation itself raises (e.g. `curl` is not installed). -/
def trRaise : Transport := fun _ _ => Except.error (PyErr.transportError "curl: not found")

set_option maxRecDepth 100000

/-- Transport answering `{"code":0,"data":{"content":"hello"}}` with exit 0,
pointwise equal to `trHello` but syntactically distinct. -/
def trHello2 : Transport := fun _u _ =>
  Except.ok ⟨0 + 0, "\x7b\"code\":0,\"data\":\x7b\"content\":\"hello\"\x7d\x7d"⟩

/-- The report block a descriptor contributes: process it, then render it. -/
def docBlock (tr : Transport) (tok : String) (d : RawDoc) : Except PyErr String :=
  processDoc tr tok d >>= renderDoc

/-- The dry-mode listing line as a total function of a descriptor with the
two printed fields present. -/
def dryStr (d : RawDoc) : String :=
  "  • " ++ pyStr ((dget d "title").getD Json.null) ++ ": " ++
    pyStr ((dget d "document_token").getD Json.null)

/-- The descriptor fields the script reads unconditionally. -/
def requiredFields : List String :=
  ["title", "document_token", "number", "level", "node_token", "url"]

/-- A descriptor carrying every field the script reads. -/
def WellFormedDoc (d : RawDoc) : Prop := ∀ k ∈ requiredFields, (dget d k).isSome

/-- A transport that never raises and whose bodies decode to string-or-absent
content (the shape the remote API contract promises). -/
def SafeTransport (tr : Transport) : Prop :=
  ∀ u a, ∃ resp, tr u a = Except.ok resp ∧
    (extractContent resp = none ∨ ∃ s, extractContent resp = some (Json.str s))

/-- `dget` over an append: the later (last-wins) half is consulted first. -/
lemma dget_append (d1 d2 : List (String × Json)) (k : String) :
    dget (d1 ++ d2) k =
      match dget d2 k with
      | some w => some w
      | none => dget d1 k := by
  induction d1 with
  | nil => cases h : dget d2 k <;> simp [dget, h]
  | cons p rest ih =>
    obtain ⟨k0, v⟩ := p
    show dget ((k0, v) :: (rest ++ d2)) k = _
    simp only [dget, ih]
    cases h : dget d2 k <;> cases h2 : dget rest k <;> simp [dget]

/-- Replacing every binding of `k` makes `k` look up the new value iff some
binding of `k` existed. -/
lemma dget_replaceAll_same (d : RawDoc) (k : String) (v : Json) :
    dget (replaceAll d k v) k = if (dget d k).isSome then some v else none := by
  induction d with
  | nil => simp [replaceAll, dget]
  | cons p rest ih =>
    obtain ⟨k0, w⟩ := p
    by_cases hk0 : k0 = k
    · subst hk0
      show dget ((if k0 = k0 then (k0, v) else (k0, w)) :: replaceAll rest k0 v) k0 = _
      rw [if_pos rfl]
      simp only [dget, ih]
      cases h : dget rest k0 <;> simp [h]
    · show dget ((if k0 = k then (k, v) else (k0, w)) :: replaceAll rest k v) k = _
      rw [if_neg hk0]
      cases h : dget rest k <;> simp [dget, ih, h, hk0]

/-- Replacing the bindings of `k` leaves every other key's lookup unchanged. -/
lemma dget_replaceAll_ne (d : RawDoc) (k k' : String) (v : Json)
    (hne : k' ≠ k) :
    dget (replaceAll d k v) k' = dget d k' := by
  induction d with
  | nil => simp [replaceAll]
  | cons p rest ih =>
    obtain ⟨k0, w⟩ := p
    by_cases hk0 : k0 = k
    · subst hk0
      have h2 : ¬k0 = k' := fun h => hne h.symm
      show dget ((if k0 = k0 then (k0, v) else (k0, w)) :: replaceAll rest k0 v) k' = _
      rw [if_pos rfl]
      simp only [dget, ih]
      cases h : dget rest k' <;> simp [h, h2]
    · show dget ((if k0 = k then (k, v) else (k0, w)) :: replaceAll rest k v) k' = _
      rw [if_neg hk0]
      simp only [dget, ih]

/-- `d[k] = v` then `d.get(k)` yields `v`. -/
lemma dget_dset_same (d : RawDoc) (k : String) (v : Json) :
    dget (dset d k v) k = some v := by
  unfold dset
  by_cases h : (dget d k).isSome
  · simp [h, dget_replaceAll_same]
  · rw [if_neg h, dget_append]
    simp [dget]

/-- `d[k] = v` leaves every other key's lookup unchanged. -/
lemma dget_dset_ne (d : RawDoc) (k k' : String) (v : Json) (hne : k' ≠ k) :
    dget (dset d k v) k' = dget d k' := by
  unfold dset
  by_cases h : (dget d k).isSome
  · simp [h, dget_replaceAll_ne _ _ _ _ hne]
  · have h2 : ¬k = k' := fun hh => hne hh.symm
    rw [if_neg h, dget_append]
    simp [dget, h2]

/-- A successful `exMapM` has one output per input. -/
lemma exMapM_ok_length {f : α → Except PyErr β} {l : List α} {ys : List β}
    (h : exMapM f l = Except.ok ys) : ys.length = l.length := by
  induction l generalizing ys with
  | nil => simp [exMapM, pure, Except.pure] at h; subst h; rfl
  | cons x xs ih =>
    simp only [exMapM, bind, Except.bind] at h
    cases hx : f x with
    | error e => rw [hx] at h; exact absurd h (by simp)
    | ok y =>
      rw [hx] at h
      cases hxs : exMapM f xs with
      | error e => rw [hxs] at h; exact absurd h (by simp)
      | ok ys' =>
        rw [hxs] at h
        simp [pure, Except.pure] at h
        subst h
        simp [ih hxs]

/-- A successful `exMapM` succeeded on every element, with its output in the
output list. -/
lemma exMapM_ok_mem {f : α → Except PyErr β} {l : List α} {ys : List β}
    (h : exMapM f l = Except.ok ys) {x : α} (hx : x ∈ l) :
    ∃ y, y ∈ ys ∧ f x = Except.ok y := by
  induction l generalizing ys with
  | nil => exact absurd hx (List.not_mem_nil x)
  | cons z zs ih =>
    simp only [exMapM, bind, Except.bind] at h
    cases hz : f z with
    | error e => rw [hz] at h; exact absurd h (by simp)
    | ok y =>
      rw [hz] at h
      cases hzs : exMapM f zs with
      | error e => rw [hzs] at h; exact absurd h (by simp)
      | ok ys' =>
        rw [hzs] at h
        simp [pure, Except.pure] at h
        subst h
        rcases List.mem_cons.mp hx with hxz | hxzs
        · exact ⟨y, List.mem_cons_self y ys', hxz ▸ hz⟩
        · obtain ⟨w, hw1, hw2⟩ := ih hzs hxzs
          exact ⟨w, List.mem_cons_of_mem y hw1, hw2⟩

/-- A successful `exMapM` maps the `i`-th input to the `i`-th output. -/
lemma exMapM_ok_get {f : α → Except PyErr β} {l : List α} {ys : List β}
    (h : exMapM f l = Except.ok ys) :
    ∀ i (h1 : i < l.length) (h2 : i < ys.length),
      f (l.get ⟨i, h1⟩) = Except.ok (ys.get ⟨i, h2⟩) := by
  induction l generalizing ys with
  | nil => intro i h1; exact absurd h1 (Nat.not_lt_zero i)
  | cons z zs ih =>
    simp only [exMapM, bind, Except.bind] at h
    cases hz : f z with
    | error e => rw [hz] at h; exact absurd h (by simp)
    | ok y =>
      rw [hz] at h
      cases hzs : exMapM f zs with
      | error e => rw [hzs] at h; exact absurd h (by simp)
      | ok ys' =>
        rw [hzs] at h
        simp [pure, Except.pure] at h
        subst h
        intro i h1 h2
        match i with
        | 0 => simpa using hz
        | Nat.succ j =>
          exact ih hzs j (Nat.lt_of_succ_lt_succ h1) (Nat.lt_of_succ_lt_succ h2)

/-- Chaining two successful `exMapM` passes equals one pass of the composed
step. -/
lemma exMapM_comp_ok {f : α → Except PyErr β} {g : β → Except PyErr γ}
    {l : List α} {ys : List β} {zs : List γ}
    (hf : exMapM f l = Except.ok ys) (hg : exMapM g ys = Except.ok zs) :
    exMapM (fun x => f x >>= g) l = Except.ok zs := by
  induction l generalizing ys zs with
  | nil =>
    simp [exMapM, pure, Except.pure] at hf
    subst hf
    simpa [exMapM] using hg
  | cons x xs ih =>
    simp only [exMapM, bind, Except.bind] at hf
    cases hx : f x with
    | error e => rw [hx] at hf; exact absurd hf (by simp)
    | ok y =>
      rw [hx] at hf
      cases hxs : exMapM f xs with
      | error e => rw [hxs] at hf; exact absurd hf (by simp)
      | ok ys' =>
        rw [hxs] at hf
        simp [pure, Except.pure] at hf
        subst hf
        simp only [exMapM, bind, Except.bind] at hg
        cases hy : g y with
        | error e => rw [hy] at hg; exact absurd hg (by simp)
        | ok z =>
          rw [hy] at hg
          cases hys : exMapM g ys' with
          | error e => rw [hys] at hg; exact absurd hg (by simp)
          | ok zs' =>
            rw [hys] at hg
            simp [pure, Except.pure] at hg
            subst hg
            have hcomp := ih hxs hys
            simp only [bind, Except.bind] at hcomp
            simp only [exMapM, bind, Except.bind, hx, hy, hcomp, pure, Except.pure]

/-- C5: if the input file does not exist, `main` exits with status 1,
writes no output file, makes no transport call, and changes no other
state (no directory creation, no listing). -/
theorem missing_input_exits_one (user_token : Option String) (tr : Transport) :
    main user_token none tr = Except.ok ⟨1, 0, none, false, none⟩ := rfl

/-- C9: in live mode, an empty input array yields exit 0 and a report that
is exactly the banner header, with no document blocks. -/
theorem empty_input_banner_only (tok : String) (h : tok ≠ "") (tr : Transport) :
    main (some tok) (some []) tr = Except.ok ⟨0, 0, some bannerText, true, none⟩ := by
  have h' : tok.isEmpty = false := by
    cases htok : tok.isEmpty
    · rfl
    · exact absurd ((String.isEmpty_iff tok).mp htok) h
  simp [main, h', processDocs, exMapM, renderReport, String.join, String.append_empty,
    pure, Except.pure, bind, Except.bind]

/-- Witness for C9 at a concrete token and transport. -/
theorem empty_input_banner_only_witness :
    main (some "t") (some []) trHello = Except.ok ⟨0, 0, some bannerText, true, none⟩ :=
  empty_input_banner_only "t" (by decide) trHello

/-- C6: a fetch answering exit 0 with `{"code":0,"data":{"content":"hello"}}`
sets the descriptor's content to the string `"hello"`, the descriptor's
report block contains the literal text `hello`, and so does the written
report. -/
theorem hello_fetch_report :
    (processDoc trHello "t" sampleDoc).map (fun d => dget d "content")
        = Except.ok (some (Json.str "hello"))
    ∧ ((processDoc trHello "t" sampleDoc >>= renderDoc).map
        (fun s => strHasSub s "hello")) = Except.ok true
    ∧ (main (some "t") (some [sampleDoc]) trHello).map
        (fun r => r.output.map (fun s => strHasSub s "hello"))
        = Except.ok (some true) :=
  ⟨rfl, rfl, rfl⟩

/-- C7: a fetch answering `{"code":1}` or a non-JSON body leaves the
descriptor's content absent (`None`) and its report entry shows the
literal placeholder `[Content not available]`. -/
theorem failure_placeholder_report :
    (processDoc trCode1 "t" sampleDoc).map (fun d => dget d "content")
        = Except.ok (some Json.null)
    ∧ (main (some "t") (some [sampleDoc]) trCode1).map
        (fun r => r.output.map (fun s => strHasSub s "[Content not available]"))
        = Except.ok (some true)
    ∧ (processDoc trBad "t" sampleDoc).map (fun d => dget d "content")
        = Except.ok (some Json.null)
    ∧ (main (some "t") (some [sampleDoc]) trBad).map
        (fun r => r.output.map (fun s => strHasSub s "[Content not available]"))
        = Except.ok (some true) :=
  ⟨rfl, rfl, rfl, rfl⟩

/-- Counterexample to C2: on exit 0 with body `{"code":0,"data":{}}` (status
code 0, nested content field missing), `get_content_via_api` does return
the empty string, but the descriptor's content is set to `None` — the
empty text is NOT attached as the descriptor's content; the entry gets
the unavailable placeholder instead. -/
theorem empty_content_treated_absent_cx :
    extractContent ⟨0, emptyContentBody⟩ = some (Json.str "")
    ∧ (processDoc trEmpty "t" sampleDoc).map (fun d => dget d "content")
        = Except.ok (some Json.null)
    ∧ (main (some "t") (some [sampleDoc]) trEmpty).map
        (fun r => r.output.map (fun s => strHasSub s "[Content not available]"))
        = Except.ok (some true)
    ∧ (some Json.null ≠ some (Json.str "")) :=
  ⟨rfl, rfl, rfl, by simp⟩

/-- Counterexample to C3: when invoking the transport itself raises (the
`subprocess.run` call is outside the `try`), the exception propagates out
of the loop: the whole batch aborts with an unhandled error and no report
is produced, instead of the failure being contained to one descriptor. -/
theorem transport_raise_aborts_batch_cx :
    main (some "t") (some [sampleDoc, sampleDoc2]) trRaise
      = Except.error (PyErr.transportError "curl: not found") := rfl

/-- C8: the pipeline outcome is a deterministic function of the credential,
the input array and the per-request transport responses: two runs with
pointwise-identical transports produce identical results — in particular
byte-identical output reports. -/
theorem pipeline_deterministic (user_token : Option String)
    (inputFile : Option (List RawDoc)) (tr tr' : Transport)
    (h : ∀ u a, tr u a = tr' u a) :
    main user_token inputFile tr = main user_token inputFile tr'
    ∧ (main user_token inputFile tr).map RunResult.output
        = (main user_token inputFile tr').map RunResult.output := by
  have he : tr = tr' := funext fun u => funext fun a => h u a
  rw [he]
  exact ⟨rfl, rfl⟩

/-- Witness for C8: two syntactically different but pointwise-equal
transports give identical runs. -/
theorem pipeline_deterministic_witness :
    main (some "t") (some [sampleDoc]) trHello = main (some "t") (some [sampleDoc]) trHello2
    ∧ (main (some "t") (some [sampleDoc]) trHello).map RunResult.output
        = (main (some "t") (some [sampleDoc]) trHello2).map RunResult.output :=
  pipeline_deterministic (some "t") (some [sampleDoc]) trHello trHello2 (fun _ _ => rfl)

/-- C2 (amended): on a transport-level success whose JSON body has status
code 0 and no nested content field, `get_content_via_api` returns the
empty string — but `main`'s truthiness test (`if content:`) then treats
the empty string as a failure, so the descriptor's content is set to
`None` (absent), not to the empty text. -/
theorem empty_content_demoted_to_none
    (resp : CurlResult) (kvs : List (String × Json))
    (h0 : resp.returncode = 0)
    (hp : Json.parse resp.stdout = some (Json.obj kvs))
    (hc : eqPyZero (dget kvs "code") = true)
    (hd : dget kvs "data" = none ∨
      ∃ kvs2, dget kvs "data" = some (Json.obj kvs2) ∧ dget kvs2 "content" = none) :
    extractContent resp = some (Json.str "")
    ∧ ∀ (d : RawDoc) (tok : String),
        (dget d "title").isSome → (dget d "document_token").isSome →
        processDoc (fun _ _ => Except.ok resp) tok d
          = Except.ok (dset d "content" Json.null) := by
  have hex : extractContent resp = some (Json.str "") := by
    rcases hd with hd | ⟨kvs2, hd, hc2⟩
    · simp [extractContent, h0, hp, hc, hd]
    · simp [extractContent, h0, hp, hc, hd, hc2]
  refine ⟨hex, ?_⟩
  intro d tok ht hk
  obtain ⟨tv, htv⟩ := Option.isSome_iff_exists.mp ht
  obtain ⟨kv, hkv⟩ := Option.isSome_iff_exists.mp hk
  simp [processDoc, dgetE, htv, hkv, get_content_via_api, hex, pyTruthy,
    String.isEmpty, bind, Except.bind, pure, Except.pure]

/-- Witness for C2 (amended) at the concrete body `{"code":0,"data":{}}`. -/
theorem empty_content_demoted_to_none_witness :
    extractContent ⟨0, emptyContentBody⟩ = some (Json.str "")
    ∧ processDoc (fun _ _ => Except.ok ⟨0, emptyContentBody⟩) "t" sampleDoc
        = Except.ok (dset sampleDoc "content" Json.null) := by
  have h := empty_content_demoted_to_none ⟨0, emptyContentBody⟩
    [("code", Json.num 0), ("data", Json.obj [])] rfl rfl rfl (Or.inr ⟨[], rfl, rfl⟩)
  exact ⟨h.1, h.2 sampleDoc "t" rfl rfl⟩

/-- C3 (amended): failures inside the response handling (any body the JSON
handling rejects) are contained to the descriptor — its content becomes
absent and the loop continues with the rest — but an exception raised by
the transport invocation itself propagates and aborts the whole batch. -/
theorem fetch_error_containment
    (d : RawDoc) (rest : List RawDoc) (tok : String) (tr : Transport) (tokv : Json)
    (htok : dget d "document_token" = some tokv)
    (htitle : (dget d "title").isSome) :
    (∀ e, tr (apiUrl (pyStr tokv)) (authHeader tok) = Except.error e →
        processDocs tr tok (d :: rest) = Except.error e)
    ∧ (∀ resp, tr (apiUrl (pyStr tokv)) (authHeader tok) = Except.ok resp →
        extractContent resp = none →
        processDocs tr tok (d :: rest)
          = (processDocs tr tok rest).map
              (fun ds => dset d "content" Json.null :: ds)) := by
  obtain ⟨tv, htv⟩ := Option.isSome_iff_exists.mp htitle
  constructor
  · intro e he
    simp [processDocs, exMapM, processDoc, dgetE, htv, htok, get_content_via_api,
      he, bind, Except.bind]
  · intro resp hresp hex
    cases h2 : exMapM (processDoc tr tok) rest <;>
      simp [processDocs, exMapM, processDoc, dgetE, htv, htok, get_content_via_api,
        hresp, hex, h2, bind, Except.bind, pure, Except.pure, Except.map]

/-- Witness for C3 (amended): a raising transport aborts the batch; a
non-JSON body is contained and the loop continues. -/
theorem fetch_error_containment_witness :
    processDocs trRaise "t" [sampleDoc] = Except.error (PyErr.transportError "curl: not found")
    ∧ processDocs trBad "t" [sampleDoc, sampleDoc2]
        = (processDocs trBad "t" [sampleDoc2]).map
            (fun ds => dset sampleDoc "content" Json.null :: ds) := by
  constructor
  · exact (fetch_error_containment sampleDoc [] "t" trRaise (Json.str "tokA") rfl (by rfl)).1
      _ rfl
  · exact (fetch_error_containment sampleDoc [sampleDoc2] "t" trBad (Json.str "tokA") rfl
      (by rfl)).2 _ rfl rfl

/-- The dry-mode listing succeeds and lists every descriptor in order when
the two printed fields are present. -/
lemma exMapM_dryLine_ok (docs : List RawDoc)
    (h : ∀ d ∈ docs, (dget d "title").isSome ∧ (dget d "document_token").isSome) :
    exMapM dryLine docs = Except.ok (docs.map dryStr) := by
  induction docs with
  | nil => rfl
  | cons d ds ih =>
    obtain ⟨ht, hk⟩ := h d (List.mem_cons_self d ds)
    obtain ⟨tv, htv⟩ := Option.isSome_iff_exists.mp ht
    obtain ⟨kv, hkv⟩ := Option.isSome_iff_exists.mp hk
    have ih' := ih (fun d' hd' => h d' (List.mem_cons_of_mem d hd'))
    simp [exMapM, dryLine, dgetE, htv, hkv, ih', dryStr, bind, Except.bind,
      pure, Except.pure]

/-- C4: with the credential absent, the run does not depend on the transport
at all (zero transport invocations recorded), and on descriptors carrying
the two printed fields it prints the full title/token listing in input
order and exits 0, writing nothing. -/
theorem dry_mode_no_transport (docs : List RawDoc) (tr tr' : Transport) :
    main none (some docs) tr = main none (some docs) tr'
    ∧ ((∀ d ∈ docs, (dget d "title").isSome ∧ (dget d "document_token").isSome) →
        main none (some docs) tr
          = Except.ok ⟨0, 0, none, false, some (docs.map dryStr)⟩) := by
  refine ⟨rfl, fun h => ?_⟩
  simp [main, exMapM_dryLine_ok docs h, bind, Except.bind, pure, Except.pure]

/-- Witness for C4 at a concrete input array and two different transports. -/
theorem dry_mode_no_transport_witness :
    main none (some [sampleDoc]) trHello = main none (some [sampleDoc]) trRaise
    ∧ main none (some [sampleDoc]) trHello
        = Except.ok ⟨0, 0, none, false, some ["  • Doc One: tokA"]⟩ := by
  have h := dry_mode_no_transport [sampleDoc] trHello trRaise
  refine ⟨h.1, ?_⟩
  have h2 := h.2 ?_
  · exact h2.trans (by rfl)
  · intro d hd
    rw [List.mem_singleton] at hd
    subst hd
    exact ⟨rfl, rfl⟩

/-- C1: in live mode, whenever a report is written it is the banner followed
by exactly one block per input descriptor, in input order: the block list
is the (monadic) image of the input array, has the same length (no
filtering or deduplication), and its `i`-th block is produced from the
`i`-th input descriptor (no reordering). -/
theorem report_order_matches_input (tok : String) (docs : List RawDoc)
    (tr : Transport) (r : RunResult)
    (hne : tok.isEmpty = false)
    (h : main (some tok) (some docs) tr = Except.ok r) :
    ∃ blocks : List String,
      exMapM (docBlock tr tok) docs = Except.ok blocks
      ∧ blocks.length = docs.length
      ∧ r.output = some (bannerText ++ String.join blocks)
      ∧ ∀ i (h1 : i < docs.length) (h2 : i < blocks.length),
          docBlock tr tok (docs.get ⟨i, h1⟩) = Except.ok (blocks.get ⟨i, h2⟩) := by
  simp only [main, hne, Bool.false_eq_true, if_false, bind, Except.bind] at h
  cases hres : processDocs tr tok docs with
  | error e => simp [hres] at h
  | ok res =>
    cases hrep : renderReport res with
    | error e => simp [hres, hrep] at h
    | ok s =>
      simp only [hres, hrep, pure, Except.pure, Except.ok.injEq] at h
      subst h
      unfold renderReport at hrep
      cases hblocks : exMapM renderDoc res with
      | error e => simp [hblocks, bind, Except.bind] at hrep
      | ok blocks =>
        simp only [hblocks, bind, Except.bind, pure, Except.pure, Except.ok.injEq] at hrep
        have hres' : exMapM (processDoc tr tok) docs = Except.ok res := hres
        have hcomp := exMapM_comp_ok hres' hblocks
        refine ⟨blocks, ?_, ?_, ?_, ?_⟩
        · simpa [docBlock] using hcomp
        · rw [exMapM_ok_length hblocks, exMapM_ok_length hres']
        · simp [hrep]
        · intro i h1 h2
          have hg := exMapM_ok_get hcomp i h1 h2
          simpa [docBlock] using hg

/-- Witness for C1 at a singleton input and a concrete transport. -/
theorem report_order_matches_input_witness :
    ∃ blocks : List String,
      exMapM (docBlock trHello "t") [sampleDoc] = Except.ok blocks
      ∧ blocks.length = 1 := by
  obtain ⟨r, hr⟩ : ∃ r, main (some "t") (some [sampleDoc]) trHello = Except.ok r :=
    ⟨_, rfl⟩
  obtain ⟨blocks, h1, h2, _⟩ :=
    report_order_matches_input "t" [sampleDoc] trHello r rfl hr
  exact ⟨blocks, h1, h2⟩

/-- A successfully rendered document carried every required field. -/
lemma renderDoc_ok_fields {d : RawDoc} {s : String} (h : renderDoc d = Except.ok s) :
    ∀ k ∈ requiredFields, (dget d k).isSome := by
  intro k hk
  cases h1 : dget d "number" with
  | none => simp [renderDoc, dgetE, h1, bind, Except.bind] at h
  | some v1 =>
  cases h2 : dget d "title" with
  | none => simp [renderDoc, dgetE, h1, h2, bind, Except.bind] at h
  | some v2 =>
  cases h3 : dget d "level" with
  | none => simp [renderDoc, dgetE, h1, h2, h3, bind, Except.bind] at h
  | some v3 =>
  cases h4 : dget d "node_token" with
  | none => simp [renderDoc, dgetE, h1, h2, h3, h4, bind, Except.bind] at h
  | some v4 =>
  cases h5 : dget d "document_token" with
  | none => simp [renderDoc, dgetE, h1, h2, h3, h4, h5, bind, Except.bind] at h
  | some v5 =>
  cases h6 : dget d "url" with
  | none => simp [renderDoc, dgetE, h1, h2, h3, h4, h5, h6, bind, Except.bind] at h
  | some v6 =>
  simp only [requiredFields, List.mem_cons] at hk
  rcases hk with rfl | rfl | rfl | rfl | rfl | rfl | hk
  · simp [h2]
  · simp [h5]
  · simp [h1]
  · simp [h3]
  · simp [h4]
  · simp [h6]
  · simp at hk

/-- A successful loop iteration only sets the `content` key of its document. -/
lemma processDoc_ok_shape {tr : Transport} {tok : String} {d d' : RawDoc}
    (h : processDoc tr tok d = Except.ok d') :
    ∃ v, d' = dset d "content" v := by
  cases h1 : dget d "title" with
  | none => simp [processDoc, dgetE, h1, bind, Except.bind] at h
  | some v1 =>
  cases h2 : dget d "document_token" with
  | none => simp [processDoc, dgetE, h1, h2, bind, Except.bind] at h
  | some v2 =>
  cases h3 : tr (apiUrl (pyStr v2)) (authHeader tok) with
  | error e =>
    simp [processDoc, dgetE, h1, h2, get_content_via_api, h3, bind, Except.bind] at h
  | ok resp =>
  cases h4 : extractContent resp with
  | none =>
    simp only [processDoc, dgetE, h1, h2, get_content_via_api, h3, h4, bind, Except.bind,
      pure, Except.pure, Except.ok.injEq] at h
    exact ⟨Json.null, h.symm⟩
  | some v =>
  cases h5 : pyTruthy v with
  | false =>
    simp only [processDoc, dgetE, h1, h2, get_content_via_api, h3, h4, h5, bind, Except.bind,
      Bool.false_eq_true, if_false, pure, Except.pure, Except.ok.injEq] at h
    exact ⟨Json.null, h.symm⟩
  | true =>
    cases h6 : pyLen v with
    | error e =>
      simp [processDoc, dgetE, h1, h2, get_content_via_api, h3, h4, h5, h6,
        bind, Except.bind] at h
    | ok n =>
      simp only [processDoc, dgetE, h1, h2, get_content_via_api, h3, h4, h5, h6,
        bind, Except.bind, if_true, pure, Except.pure, Except.ok.injEq] at h
      exact ⟨v, h.symm⟩

/-- On a descriptor with the two loop-read fields and a safe transport, the
loop iteration succeeds, annotating the descriptor with null-or-string
content. -/
lemma processDoc_ok_of_wf (tok : String) {tr : Transport} {d : RawDoc}
    (hT : (dget d "title").isSome) (hK : (dget d "document_token").isSome)
    (hS : SafeTransport tr) :
    ∃ v, processDoc tr tok d = Except.ok (dset d "content" v)
      ∧ (v = Json.null ∨ ∃ s, v = Json.str s) := by
  obtain ⟨tv, htv⟩ := Option.isSome_iff_exists.mp hT
  obtain ⟨kv, hkv⟩ := Option.isSome_iff_exists.mp hK
  obtain ⟨resp, hresp, hcontent⟩ := hS (apiUrl (pyStr kv)) (authHeader tok)
  rcases hcontent with hnone | ⟨s, hs⟩
  · refine ⟨Json.null, ?_, Or.inl rfl⟩
    simp [processDoc, dgetE, htv, hkv, get_content_via_api, hresp, hnone,
      bind, Except.bind, pure, Except.pure]
  · cases hse : s.isEmpty with
    | true =>
      refine ⟨Json.null, ?_, Or.inl rfl⟩
      simp [processDoc, dgetE, htv, hkv, get_content_via_api, hresp, hs, pyTruthy, hse,
        bind, Except.bind, pure, Except.pure]
    | false =>
      refine ⟨Json.str s, ?_, Or.inr ⟨s, rfl⟩⟩
      simp [processDoc, dgetE, htv, hkv, get_content_via_api, hresp, hs, pyTruthy, hse,
        pyLen, bind, Except.bind, pure, Except.pure]

/-- An `Except` that is no error is an `ok`. -/
lemma except_ok_of_ne_error {ε α : Type} {e : Except ε α}
    (h : ∀ err, e ≠ Except.error err) : ∃ out, e = Except.ok out := by
  cases e with
  | error err => exact absurd rfl (h err)
  | ok out => exact ⟨out, rfl⟩

/-- A descriptor with every required field and null-or-string content
renders successfully. -/
lemma renderDoc_ok_of_wf {d : RawDoc}
    (hwf : ∀ k ∈ requiredFields, (dget d k).isSome)
    (hcontent : dget d "content" = some Json.null ∨
      ∃ s, dget d "content" = some (Json.str s)) :
    ∃ out, renderDoc d = Except.ok out := by
  obtain ⟨v1, h1⟩ := Option.isSome_iff_exists.mp (hwf "number" (by simp [requiredFields]))
  obtain ⟨v2, h2⟩ := Option.isSome_iff_exists.mp (hwf "title" (by simp [requiredFields]))
  obtain ⟨v3, h3⟩ := Option.isSome_iff_exists.mp (hwf "level" (by simp [requiredFields]))
  obtain ⟨v4, h4⟩ := Option.isSome_iff_exists.mp (hwf "node_token" (by simp [requiredFields]))
  obtain ⟨v5, h5⟩ :=
    Option.isSome_iff_exists.mp (hwf "document_token" (by simp [requiredFields]))
  obtain ⟨v6, h6⟩ := Option.isSome_iff_exists.mp (hwf "url" (by simp [requiredFields]))
  apply except_ok_of_ne_error
  intro err hcontra
  rcases hcontent with hc | ⟨s, hc⟩
  · simp only [renderDoc, dgetE, h1, h2, h3, h4, h5, h6, hc, pyTruthy,
      Bool.false_eq_true, if_false, bind, Except.bind, pure, Except.pure] at hcontra
    exact Except.noConfusion hcontra
  · cases hse : s.isEmpty with
    | true =>
      simp only [renderDoc, dgetE, h1, h2, h3, h4, h5, h6, hc, pyTruthy, hse,
        Bool.not_true, Bool.false_eq_true, if_false, bind, Except.bind, pure,
        Except.pure] at hcontra
      exact Except.noConfusion hcontra
    | false =>
      simp only [renderDoc, dgetE, h1, h2, h3, h4, h5, h6, hc, pyTruthy, hse,
        Bool.not_false, if_true, bind, Except.bind, pure, Except.pure] at hcontra
      exact Except.noConfusion hcontra

/-- On well-formed descriptors and a safe transport the whole loop succeeds,
and every result still has every required field plus null-or-string
content. -/
lemma processDocs_ok_of_wf (tok : String) {tr : Transport} {docs : List RawDoc}
    (hwf : ∀ d ∈ docs, WellFormedDoc d) (hS : SafeTransport tr) :
    ∃ res, processDocs tr tok docs = Except.ok res
      ∧ ∀ d' ∈ res, (∀ k ∈ requiredFields, (dget d' k).isSome)
          ∧ (dget d' "content" = some Json.null ∨
              ∃ s, dget d' "content" = some (Json.str s)) := by
  induction docs with
  | nil => exact ⟨[], rfl, by simp⟩
  | cons d ds ih =>
    have hd := hwf d (List.mem_cons_self d ds)
    obtain ⟨v, hpd, hv⟩ := processDoc_ok_of_wf tok
      (hd "title" (by simp [requiredFields]))
      (hd "document_token" (by simp [requiredFields])) hS
    obtain ⟨res, hres, hresP⟩ := ih (fun d' h' => hwf d' (List.mem_cons_of_mem d h'))
    have hres' : exMapM (processDoc tr tok) ds = Except.ok res := hres
    refine ⟨dset d "content" v :: res, ?_, ?_⟩
    · simp [processDocs, exMapM, hpd, hres', bind, Except.bind, pure, Except.pure]
    · intro d' hd'
      rcases List.mem_cons.mp hd' with rfl | hd'
      · constructor
        · intro k hk
          have hkc : k ≠ "content" := by
            simp only [requiredFields, List.mem_cons] at hk
            rcases hk with rfl | rfl | rfl | rfl | rfl | rfl | hk
            · decide
            · decide
            · decide
            · decide
            · decide
            · decide
            · simp at hk
          rw [dget_dset_ne _ _ _ _ hkc]
          exact hd k hk
        · rw [dget_dset_same]
          rcases hv with rfl | ⟨s, rfl⟩
          · exact Or.inl rfl
          · exact Or.inr ⟨s, rfl⟩
      · exact hresP d' hd'

/-- Rendering succeeds on every list of well-formed annotated descriptors. -/
lemma exMapM_renderDoc_ok {res : List RawDoc}
    (h : ∀ d' ∈ res, (∀ k ∈ requiredFields, (dget d' k).isSome)
        ∧ (dget d' "content" = some Json.null ∨
            ∃ s, dget d' "content" = some (Json.str s))) :
    ∃ blocks, exMapM renderDoc res = Except.ok blocks := by
  induction res with
  | nil => exact ⟨[], rfl⟩
  | cons d ds ih =>
    obtain ⟨hwf, hc⟩ := h d (List.mem_cons_self d ds)
    obtain ⟨out, hout⟩ := renderDoc_ok_of_wf hwf hc
    obtain ⟨blocks, hblocks⟩ := ih (fun d' h' => h d' (List.mem_cons_of_mem d h'))
    exact ⟨out :: blocks,
      by simp [exMapM, hout, hblocks, bind, Except.bind, pure, Except.pure]⟩

/-- C10: the script reads the fields `title`, `document_token`, `number`,
`level`, `node_token` and `url` of every descriptor unconditionally: in
live mode, an input containing a descriptor that lacks one of them makes
the run die on an unhandled error (no skipping, no default); and when
every descriptor carries all of them (given a transport that returns
string-or-absent content without raising), the accesses never fail and
the run completes with exit 0. -/
theorem descriptor_fields_required :
    (∀ (tok : String) (docs : List RawDoc) (tr : Transport) (d : RawDoc) (k : String),
      tok.isEmpty = false → d ∈ docs → k ∈ requiredFields → dget d k = none →
      ∀ r, main (some tok) (some docs) tr ≠ Except.ok r)
    ∧ (∀ (tok : String) (docs : List RawDoc) (tr : Transport),
      tok.isEmpty = false → (∀ d ∈ docs, WellFormedDoc d) → SafeTransport tr →
      ∃ r, main (some tok) (some docs) tr = Except.ok r ∧ r.exitCode = 0) := by
  constructor
  · intro tok docs tr d k hne hd hk hnone r h
    simp only [main, hne, Bool.false_eq_true, if_false, bind, Except.bind] at h
    cases hres : processDocs tr tok docs with
    | error e => simp [hres] at h
    | ok res =>
      cases hrep : renderReport res with
      | error e => simp [hres, hrep] at h
      | ok s =>
        have hres' : exMapM (processDoc tr tok) docs = Except.ok res := hres
        obtain ⟨d', hd', hpd⟩ := exMapM_ok_mem hres' hd
        obtain ⟨v, rfl⟩ := processDoc_ok_shape hpd
        unfold renderReport at hrep
        cases hblocks : exMapM renderDoc res with
        | error e => simp [hblocks, bind, Except.bind] at hrep
        | ok blocks =>
          obtain ⟨blk, _, hrd⟩ := exMapM_ok_mem hblocks hd'
          have hsome := renderDoc_ok_fields hrd k hk
          have hkc : k ≠ "content" := by
            simp only [requiredFields, List.mem_cons] at hk
            rcases hk with rfl | rfl | rfl | rfl | rfl | rfl | hk
            · decide
            · decide
            · decide
            · decide
            · decide
            · decide
            · simp at hk
          rw [dget_dset_ne _ _ _ _ hkc, hnone] at hsome
          simp at hsome
  · intro tok docs tr hne hwf hS
    obtain ⟨res, hres, hresP⟩ := processDocs_ok_of_wf tok hwf hS
    obtain ⟨blocks, hblocks⟩ := exMapM_renderDoc_ok hresP
    refine ⟨⟨0, docs.length, some (bannerText ++ String.join blocks), true, none⟩, ?_, rfl⟩
    simp [main, hne, hres, renderReport, hblocks, bind, Except.bind, pure, Except.pure]

/-- Witness for C10: a descriptor lacking `url` makes the live run fail; the
well-formed sample completes with exit 0. -/
theorem descriptor_fields_required_witness :
    main (some "t") (some [badDoc]) trHello ≠ Except.ok ⟨0, 1, none, false, none⟩
    ∧ ∃ r, main (some "t") (some [sampleDoc]) trHello = Except.ok r ∧ r.exitCode = 0 := by
  constructor
  · exact descriptor_fields_required.1 "t" [badDoc] trHello badDoc "url" rfl
      (List.mem_singleton.mpr rfl) (by simp [requiredFields]) rfl
      ⟨0, 1, none, false, none⟩
  · refine descriptor_fields_required.2 "t" [sampleDoc] trHello rfl ?_ ?_
    · intro d hd
      rw [List.mem_singleton] at hd
      subst hd
      intro k hk
      simp only [requiredFields, List.mem_cons] at hk
      rcases hk with rfl | rfl | rfl | rfl | rfl | rfl | hk
      · rfl
      · rfl
      · rfl
      · rfl
      · rfl
      · rfl
      · simp at hk
    · intro u a
      exact ⟨⟨0, "\x7b\"code\":0,\"data\":\x7b\"content\":\"hello\"\x7d\x7d"⟩, rfl,
        Or.inr ⟨"hello", rfl⟩⟩

end WikiContent
